import Mathlib

/-!
Verification of the MarketData dispatch-and-query core: a shallow embedding of
the asset-type registry, the generic filter engine, the date-range bar filter
and the CRUD services of `api/services/services.py`, `api/services/utils.py`,
`api/app/schemas.py` and `api/database/models.py`, together with theorems
settling the specification claims about them.
-/

deriving instance DecidableEq for Except

namespace MarketData

/-- An attribute value carried by filter criteria, edit mappings and record
attributes: an integer (ids, market caps, volumes) or a string (names,
tickers, dates). -/
inductive Value where
  | vInt (i : Int)
  | vStr (s : String)
deriving DecidableEq, Repr

/-- A record as its attribute assignment: an association list from attribute
name to value, standing for a Python object attribute dictionary. -/
abbrev Row := List (String × Value)

/-- Python truthiness of a value: the integer 0 and the empty string are
falsy, everything else is truthy. -/
def valueFalsy : Value → Bool
  | .vInt i => i == 0
  | .vStr s => s == ""

/-- Python `str` of a value, used when a string attribute receives a value. -/
def valueToStr : Value → String
  | .vStr s => s
  | .vInt i => toString i

/-- `setattr` on a row: replace the value stored under attribute `k`.
Attributes of ORM instances always exist, so no entry is created. -/
def setRow (r : Row) (k : String) (v : Value) : Row :=
  r.map (fun p => if p.1 = k then (k, v) else p)

/-- Python `str.upper` on the ASCII inputs this system handles
(`schemas._BaseAsset.uppercase_ticker`, `utils.asset_type`). -/
def pyUpper (s : String) : String := ⟨s.data.map Char.toUpper⟩

/-- Python `str.lower` on the ASCII inputs this system handles
(`schemas._BaseAsset.lowercase_type`). -/
def pyLower (s : String) : String := ⟨s.data.map Char.toLower⟩

/-- The error taxonomy of the service layer. Every constructor corresponds to
one distinct HTTPException detail raised in `services.py` or `utils.py`;
`keyError` and `nameError` stand for the uncaught Python exceptions of the
same names, and `storageFailure` for the catch-all 500 re-raise. -/
inductive Err where
  | invalidAssetType
  | missingField (field : String)
  | duplicateAsset
  | storageFailure
  | assetNotFound
  | detailsNotFound
  | duplicateBar
  | noEdits
  | invalidAttribute (key : String)
  | invalidDateFormat
  | barNotFound
  | immutableField (field : String)
  | keyError (key : String)
  | typeError
  | nameError
deriving DecidableEq, Repr

/-- The `AssetType` enum of `app/schemas.py`: the closed three-member
registry of asset categories. -/
inductive AssetType where
  | EQUITY
  | CRYPTOCURRENCY
  | COMMODITYFUTURE
deriving DecidableEq, Repr

/-- The `type` property of an `AssetType` member: its canonical name. -/
def AssetType.type : AssetType → String
  | .EQUITY => "equity"
  | .CRYPTOCURRENCY => "cryptocurrency"
  | .COMMODITYFUTURE => "commodityfuture"

/-- Attribute names of `models.Equity`: its columns and its `asset`
relationship, in declaration order. Plain helper methods of the Python class
(`to_dict`, `__repr__`) are not data attributes and are omitted. -/
def equityAttrs : List String :=
  ["equity_id", "asset_id", "asset", "company_name", "exchange", "currency",
   "industry", "description", "market_cap", "shares_outstanding",
   "created_at", "updated_at"]

/-- Attribute names of `models.Cryptocurrency`. -/
def cryptocurrencyAttrs : List String :=
  ["cryptocurrency_id", "asset_id", "asset", "cryptocurrency_name",
   "circulating_supply", "market_cap", "total_supply", "max_supply",
   "description", "created_at", "updated_at"]

/-- Attribute names of `models.CommodityFuture`. -/
def commodityFutureAttrs : List String :=
  ["commodity_future_id", "asset_id", "asset", "commodity_name",
   "base_future_code", "expiration_date", "industry", "exchange", "currency",
   "description", "created_at", "updated_at"]

/-- Attribute names of `models.EquityBarData` (it alone has
`adjusted_close`). -/
def equityBarAttrs : List String :=
  ["record_id", "asset_id", "asset", "date", "open", "close", "high", "low",
   "volume", "adjusted_close"]

/-- Attribute names of `models.CryptocurrencyBarData`. -/
def cryptocurrencyBarAttrs : List String :=
  ["record_id", "asset_id", "asset", "date", "open", "close", "high", "low",
   "volume"]

/-- Attribute names of `models.CommodityFutureBarData`. -/
def commodityFutureBarAttrs : List String :=
  ["record_id", "asset_id", "asset", "date", "open", "close", "high", "low",
   "volume"]

/-- The `model` property of `AssetType`: the detail entity shape (as its
attribute universe) the member dispatches to. -/
def AssetType.model : AssetType → List String
  | .EQUITY => equityAttrs
  | .CRYPTOCURRENCY => cryptocurrencyAttrs
  | .COMMODITYFUTURE => commodityFutureAttrs

/-- The `bardata_model` property of `AssetType`: the bar entity shape the
member dispatches to. -/
def AssetType.bardata_model : AssetType → List String
  | .EQUITY => equityBarAttrs
  | .CRYPTOCURRENCY => cryptocurrencyBarAttrs
  | .COMMODITYFUTURE => commodityFutureBarAttrs

/-- Iteration order of the `AssetType` enum (member definition order). -/
def allAssetTypes : List AssetType :=
  [.EQUITY, .CRYPTOCURRENCY, .COMMODITYFUTURE]

/-- `utils.asset_type`: `getattr(AssetType, asset_type_str.upper())` with
`AttributeError` mapped to the 400 invalid-asset-type error. The only
attributes of the enum class reachable by an upper-cased name are its three
members, so the lookup is a match on the upper-cased string. -/
def asset_type (s : String) : Except Err AssetType :=
  if pyUpper s = "EQUITY" then .ok .EQUITY
  else if pyUpper s = "CRYPTOCURRENCY" then .ok .CRYPTOCURRENCY
  else if pyUpper s = "COMMODITYFUTURE" then .ok .COMMODITYFUTURE
  else .error .invalidAssetType

/-- A row of the `asset` table (`models.Asset`); timestamps are not
modelled, no claim touches them. -/
structure Asset where
  asset_id : Int
  ticker : String
  type : String
deriving DecidableEq, Repr

/-- A row of a bar-data table: the owning asset id, the observation date
(ISO `YYYY-MM-DD`; lexicographic order on such strings is chronological
order, matching the DateTime column order), and the remaining price
attributes. -/
structure Bar where
  asset_id : Int
  date : String
  fields : Row
deriving DecidableEq, Repr

/-- One input entry of `add_bardata` (schema `CreateBardata`): the date and
the remaining price fields of `entry.dict()`; `asset_id` is assigned by the
service. -/
structure CreateBar where
  date : String
  fields : Row
deriving DecidableEq, Repr

/-- The validated payload of `createAsset` (schema `CreateAsset`). -/
structure CreateAsset where
  ticker : String
  type : String
deriving DecidableEq, Repr

/-- The pydantic validators of `schemas._BaseAsset`: ticker upper-cased,
type lower-cased before the service sees them. -/
def mkCreateAsset (ticker ty : String) : CreateAsset :=
  ⟨pyUpper ticker, pyLower ty⟩

/-- The persistent store: the `asset` table with its autoincrement counter
(ids start at 1), one detail table and one bar-data table per asset type. -/
structure DB where
  assets : List Asset
  nextAssetId : Int
  equity : List Row
  cryptocurrency : List Row
  commodity_future : List Row
  equity_bardata : List Bar
  cryptocurrency_bardata : List Bar
  commodity_future_bardata : List Bar
deriving DecidableEq, Repr

/-- The detail table the `model` property of an `AssetType` points at. -/
def AssetType.detailTable (aty : AssetType) (db : DB) : List Row :=
  match aty with
  | .EQUITY => db.equity
  | .CRYPTOCURRENCY => db.cryptocurrency
  | .COMMODITYFUTURE => db.commodity_future

/-- The bar-data table the `bardata_model` property points at. -/
def AssetType.barTable (aty : AssetType) (db : DB) : List Bar :=
  match aty with
  | .EQUITY => db.equity_bardata
  | .CRYPTOCURRENCY => db.cryptocurrency_bardata
  | .COMMODITYFUTURE => db.commodity_future_bardata

/-- Replace the bar-data table of the given asset type. -/
def AssetType.setBarTable (aty : AssetType) (db : DB) (l : List Bar) : DB :=
  match aty with
  | .EQUITY => {db with equity_bardata := l}
  | .CRYPTOCURRENCY => {db with cryptocurrency_bardata := l}
  | .COMMODITYFUTURE => {db with commodity_future_bardata := l}

/-- Replace the detail table of the given asset type. -/
def AssetType.setDetailTable (aty : AssetType) (db : DB) (l : List Row) : DB :=
  match aty with
  | .EQUITY => {db with equity := l}
  | .CRYPTOCURRENCY => {db with cryptocurrency := l}
  | .COMMODITYFUTURE => {db with commodity_future := l}

/-- SQLAlchemy `one_or_none` on a result list. A result of two or more rows
raises MultipleResultsFound, which is only reachable when the uniqueness
invariant of the queried key is already violated; it is modelled as `none`. -/
def one_or_none : List α → Option α
  | [a] => some a
  | _ => none

/-- `utils.get_asset`: query the asset table by ticker and canonical type
name, `one_or_none`. -/
def get_asset (db : DB) (ticker : String) (aty : AssetType) : Option Asset :=
  one_or_none (db.assets.filter
    (fun a => a.ticker == ticker && a.type == aty.type))

/-- `utils.asset_exists`: the asset id when the asset exists, else none. -/
def asset_exists (db : DB) (ticker : String) (aty : AssetType) : Option Int :=
  (get_asset db ticker aty).map (·.asset_id)

/-- `utils.get_details`: `.first()` row of the resolved detail table with the
given asset id. The Python function receives a possibly-None id from
`details_exist`; filtering by None matches no row of a non-nullable column,
modelled by the `none` case. -/
def get_details_row (db : DB) (aid : Option Int) (aty : AssetType) :
    Option Row :=
  match aid with
  | none => none
  | some i =>
    (aty.detailTable db).find? (fun r => r.lookup "asset_id" == some (.vInt i))

/-- `utils.details_exist`: the detail row of the asset with this ticker and
type, if both the asset and the row exist. -/
def details_exist (db : DB) (ticker : String) (aty : AssetType) : Option Row :=
  get_details_row db (asset_exists db ticker aty) aty

/-- Read an integer attribute of a row (detail rows store their owning asset
id as an integer). -/
def rowIntAttr (r : Row) (k : String) : Int :=
  match r.lookup k with
  | some (.vInt i) => i
  | _ => 0

/-- Python substring containment, as in the checks of
`apply_filter_criteria`: splitting on the pattern yields more than one part
exactly when the pattern occurs. -/
def strContains (s pat : String) : Bool :=
  (s.splitOn pat).length != 1

/-- The text before the first underscore. -/
def splitHead (key : String) : String :=
  (key.splitOn "_").headD ""

/-- Python `hasattr(model, key)` over the modelled attribute universe of an
entity shape. -/
def hasattr (model : List String) (key : String) : Bool :=
  model.contains key

/-- The comparison `attribute >= value` of a predicate: like-typed values
compare by their order; the column comparison of a missing attribute or of
mixed types matches no row. -/
def valueGe (a b : Value) : Bool :=
  match a, b with
  | .vInt x, .vInt y => decide (y ≤ x)
  | .vStr x, .vStr y => decide (y ≤ x)
  | _, _ => false

/-- The comparison `attribute <= value` of a predicate. -/
def valueLe (a b : Value) : Bool :=
  match a, b with
  | .vInt x, .vInt y => decide (x ≤ y)
  | .vStr x, .vStr y => decide (x ≤ y)
  | _, _ => false

/-- Whether a row satisfies `getattr(model, attr) >= value`. -/
def rowGe (r : Row) (attr : String) (v : Value) : Bool :=
  match r.lookup attr with
  | some w => valueGe w v
  | none => false

/-- Whether a row satisfies `getattr(model, attr) <= value`. -/
def rowLe (r : Row) (attr : String) (v : Value) : Bool :=
  match r.lookup attr with
  | some w => valueLe w v
  | none => false

/-- Whether a row satisfies `getattr(model, key) == value`. -/
def rowEq (r : Row) (attr : String) (v : Value) : Bool :=
  match r.lookup attr with
  | some w => w == v
  | none => false

/-- `utils.apply_filter_criteria`, with the refined query represented by its
result set. For each pair in iteration order: if the full key is an
attribute of the model, refine by a greater-equal predicate on
`key.split("_")[0]` when the key contains `gte`, by a less-equal predicate
on the same head when it contains `lte`, else by equality on the key; the
first key that is not an attribute raises the 400 invalid-attribute error,
discarding the query. -/
def apply_filter_criteria (query : List Row) (model : List String) :
    List (String × Value) → Except Err (List Row)
  | [] => .ok query
  | (key, value) :: rest =>
    if hasattr model key then
      if strContains key "gte" then
        apply_filter_criteria
          (query.filter (fun r => rowGe r (splitHead key) value)) model rest
      else if strContains key "lte" then
        apply_filter_criteria
          (query.filter (fun r => rowLe r (splitHead key) value)) model rest
      else
        apply_filter_criteria
          (query.filter (fun r => rowEq r key value)) model rest
    else .error (.invalidAttribute key)

/-- Whether `pat` ends the string `s`. -/
def strEndsWith (s pat : String) : Bool :=
  pat.data.isSuffixOf s.data

/-- The string without its last `n` characters. -/
def strDropRight (s : String) (n : Nat) : String :=
  ⟨s.data.take (s.data.length - n)⟩

/-- Stated from the words of the specification, for comparison with the
implemented engine: a criteria key resolves when it is an attribute
directly, or when, after stripping a recognized `_gte` or `_lte` suffix, the
remaining name is an attribute. -/
def specResolvesAttribute (model : List String) (key : String) : Bool :=
  hasattr model key ||
  (strEndsWith key "_gte" && hasattr model (strDropRight key 4)) ||
  (strEndsWith key "_lte" && hasattr model (strDropRight key 4))

/-- The first key of the mapping, in iteration order, that does not resolve
in the sense of the specification. -/
def firstSpecInvalidKey (model : List String)
    (criteria : List (String × Value)) : Option String :=
  (criteria.find? (fun p => !specResolvesAttribute model p.1)).map (·.1)

/-- The first key of the mapping, in iteration order, that is not directly
an attribute of the model: the key the implementation reports. -/
def firstInvalidKey (model : List String)
    (criteria : List (String × Value)) : Option String :=
  (criteria.find? (fun p => !hasattr model p.1)).map (·.1)

/-- `utils.apply_date_filter`: refine a bar query by
`start_date <= date AND end_date >= date`, both bounds inclusive. -/
def apply_date_filter (query : List Bar) (start_date end_date : String) :
    List Bar :=
  query.filter
    (fun b => decide (start_date ≤ b.date) && decide (end_date ≥ b.date))

/-- `services.create_asset` on the validated payload. Empty ticker or type
fail first; the type string resolves through the registry; a truthy
`asset_exists` id means duplicate; the commit enforces the unique
constraints of `models.Asset` (`ticker` unique, hence also the
(ticker, type) pair), any violation rolling back as the catch-all 500. -/
def create_asset (db : DB) (asset : CreateAsset) : DB × Except Err Asset :=
  if asset.ticker = "" then (db, .error (.missingField "ticker"))
  else if asset.type = "" then (db, .error (.missingField "type"))
  else
    match asset_type asset.type with
    | .error e => (db, .error e)
    | .ok aty =>
      if (asset_exists db asset.ticker aty).getD 0 ≠ 0 then
        (db, .error .duplicateAsset)
      else
        if db.assets.any (fun a => a.ticker == asset.ticker) then
          (db, .error .storageFailure)
        else
          ({db with
              assets := db.assets ++ [⟨db.nextAssetId, asset.ticker, asset.type⟩],
              nextAssetId := db.nextAssetId + 1},
           .ok ⟨db.nextAssetId, asset.ticker, asset.type⟩)

/-- The `createAsset` operation as exposed over HTTP: schema validation
(ticker upper-cased, type lower-cased) followed by the service. -/
def createAssetOp (db : DB) (ticker ty : String) : DB × Except Err Asset :=
  create_asset db (mkCreateAsset ticker ty)

/-- The uniqueness key (asset id, date) of every bar-data table
(`models.*BarData.__table_args__`). -/
def barKeys (l : List Bar) : List (Int × String) :=
  l.map (fun b => (b.asset_id, b.date))

/-- `services.add_bardata`: resolve the type, require the detail record,
build one bar per entry linked to the asset id, and persist the whole batch
in one commit; an IntegrityError on the (asset id, date) uniqueness key
rolls the batch back and fails as duplicate-bar. -/
def add_bardata (db : DB) (ticker aty_str : String) (data : List CreateBar) :
    DB × Except Err (List Bar) :=
  match asset_type aty_str with
  | .error e => (db, .error e)
  | .ok aty =>
    match details_exist db ticker aty with
    | none => (db, .error .assetNotFound)
    | some det =>
      let objs := data.map (fun e => Bar.mk (rowIntAttr det "asset_id") e.date e.fields)
      if (barKeys (aty.barTable db ++ objs)).Nodup then
        (aty.setBarTable db (aty.barTable db ++ objs), .ok objs)
      else
        (db, .error .duplicateBar)

/-- The per-ticker loop of `services.get_bardata`. The Python loop variable
`asset_type` persists across iterations: when the queried type matches no
registry member the previous binding is reused, and an unbound first use is
the uncaught NameError. -/
def get_bardata_go (db : DB) (start_date end_date : String) :
    List String → Option AssetType → List (String × List Bar) →
    Except Err (List (String × List Bar))
  | [], _, results => .ok results
  | ticker :: rest, acc, results =>
    match db.assets.filter (fun a => a.ticker == ticker) with
    | [queried] =>
      match
        (match allAssetTypes.find? (fun t => t.type == queried.type) with
         | some t => some t
         | none => acc) with
      | none => .error .nameError
      | some aty =>
        get_bardata_go db start_date end_date rest (some aty)
          (results ++
            [(ticker,
              apply_date_filter
                ((aty.barTable db).filter (fun b => b.asset_id == queried.asset_id))
                start_date end_date)])
    | _ => .error .assetNotFound

/-- `services.get_bardata` for an explicit ticker list and date range:
one result entry per ticker in input order; a ticker whose `.one()` asset
lookup fails aborts the whole call. -/
def get_bardata (db : DB) (tickers : List String)
    (start_date end_date : String) : Except Err (List (String × List Bar)) :=
  get_bardata_go db start_date end_date tickers none []

/-- `services.edit_asset`: look the asset up by id; reject `asset_id` and
`type` keys as immutable; then assign `edits["ticker"]` — a mapping without
that key raises an uncaught KeyError; every other key is ignored. -/
def edit_asset (db : DB) (asset_id : Int) (edits : List (String × Value)) :
    DB × Except Err Asset :=
  match one_or_none (db.assets.filter (fun a => a.asset_id == asset_id)) with
  | none => (db, .error .assetNotFound)
  | some a =>
    if (edits.map (·.1)).contains "asset_id" then
      (db, .error (.immutableField "asset_id"))
    else if (edits.map (·.1)).contains "type" then
      (db, .error (.immutableField "type"))
    else
      match edits.lookup "ticker" with
      | none => (db, .error (.keyError "ticker"))
      | some v =>
        ({db with assets :=
            db.assets.map (fun x => if x = a then {a with ticker := valueToStr v} else x)},
         .ok {a with ticker := valueToStr v})

/-- The edit loop of `services.edit_asset_details`: each key must be an
attribute of the resolved detail shape, else the 400 invalid-attribute
error; valid keys are assigned in order. -/
def applyEditsRow (aty : AssetType) (r : Row) :
    List (String × Value) → Except Err Row
  | [] => .ok r
  | (k, v) :: rest =>
    if hasattr aty.model k then applyEditsRow aty (setRow r k v) rest
    else .error (.invalidAttribute k)

/-- `services.edit_asset_details`: resolve the type, require a non-empty
edits mapping, the asset row and its detail row, then apply the edits and
commit the updated detail row. -/
def edit_asset_details (db : DB) (aty_str : String) (asset_id : Int)
    (edits : List (String × Value)) : DB × Except Err Row :=
  match asset_type aty_str with
  | .error e => (db, .error e)
  | .ok aty =>
    if edits.isEmpty then (db, .error .noEdits)
    else
      match one_or_none (db.assets.filter (fun a => a.asset_id == asset_id)) with
      | none => (db, .error .assetNotFound)
      | some a =>
        match details_exist db a.ticker aty with
        | none => (db, .error .detailsNotFound)
        | some det =>
          match applyEditsRow aty det edits with
          | .error e => (db, .error e)
          | .ok det2 =>
            (aty.setDetailTable db
              ((aty.detailTable db).map (fun r => if r = det then det2 else r)),
             .ok det2)

/-- Four digits, a dash, two digits, a dash, two digits — the body matched
by the Python pattern (the digit class is taken over ASCII, the alphabet of
the date strings this system stores). -/
def dateBody : List Char → Bool
  | [y1, y2, y3, y4, h1, m1, m2, h2, d1, d2] =>
    y1.isDigit && y2.isDigit && y3.isDigit && y4.isDigit && h1 == '-' &&
    m1.isDigit && m2.isDigit && h2 == '-' && d1.isDigit && d2.isDigit
  | _ => false

/-- The Python regex test of `edit_bardata`: anchored at both ends, but the
dollar anchor of `re` also matches just before a single newline that ends
the string, so a trailing newline is accepted. -/
def pyDateMatch (s : String) : Bool :=
  dateBody s.data ||
  (match s.data with
   | [c1, c2, c3, c4, c5, c6, c7, c8, c9, c10, nl] =>
     nl == '\n' && dateBody [c1, c2, c3, c4, c5, c6, c7, c8, c9, c10]
   | _ => false)

/-- Stated from the words of the specification: the date string matches the
pattern YYYY-MM-DD exactly, nothing more. -/
def specDateExact (s : String) : Bool :=
  dateBody s.data

/-- `setattr` on a bar instance: the date and owning-id columns are typed
fields of the embedding, the remaining columns live in the attribute row.
An integer assigned to the id column is stored; other mismatched
assignments would only fail at the storage layer and are left as the
closest typed value. -/
def setattrBar (b : Bar) (k : String) (v : Value) : Bar :=
  if k = "date" then {b with date := valueToStr v}
  else if k = "asset_id" then
    {b with asset_id := match v with | .vInt i => i | .vStr _ => b.asset_id}
  else {b with fields := setRow b.fields k v}

/-- The edit loop of `services.edit_bardata`: each key must be an attribute
of the resolved bar shape, else the 400 invalid-attribute error. -/
def applyEditsBar (aty : AssetType) (b : Bar) :
    List (String × Value) → Except Err Bar
  | [] => .ok b
  | (k, v) :: rest =>
    if hasattr aty.bardata_model k then applyEditsBar aty (setattrBar b k v) rest
    else .error (.invalidAttribute k)

/-- `utils.get_bardata_instance`: the bar row with this asset id and date,
`one_or_none`. -/
def get_bardata_instance (db : DB) (asset_id : Int) (date : String)
    (aty : AssetType) : Option Bar :=
  one_or_none ((aty.barTable db).filter
    (fun b => b.asset_id == asset_id && b.date == date))

/-- `services.edit_bardata`: resolve the type; empty edits fail; a missing
or falsy `date` value, or a date string failing the regex, fail as
invalid-date-format, while a truthy non-string date raises the uncaught
TypeError of `re.match`; then the asset and the (asset id, date) bar row
are required, and the edits are applied and committed. -/
def edit_bardata (db : DB) (aty_str : String) (asset_id : Int)
    (edits : List (String × Value)) : DB × Except Err Bar :=
  match asset_type aty_str with
  | .error e => (db, .error e)
  | .ok aty =>
    if edits.isEmpty then (db, .error .noEdits)
    else
      match edits.lookup "date" with
      | none => (db, .error .invalidDateFormat)
      | some dv =>
        if valueFalsy dv then (db, .error .invalidDateFormat)
        else
          match dv with
          | .vInt _ => (db, .error .typeError)
          | .vStr ds =>
            if !pyDateMatch ds then (db, .error .invalidDateFormat)
            else
              match one_or_none (db.assets.filter (fun a => a.asset_id == asset_id)) with
              | none => (db, .error .assetNotFound)
              | some _ =>
                match get_bardata_instance db asset_id ds aty with
                | none => (db, .error .barNotFound)
                | some bar =>
                  match applyEditsBar aty bar edits with
                  | .error e => (db, .error e)
                  | .ok bar2 =>
                    (aty.setBarTable db
                      ((aty.barTable db).map (fun b => if b = bar then bar2 else b)),
                     .ok bar2)

/-! Concrete stores used to instantiate the theorems. -/

/-- A freshly initialised store. -/
def dbEmpty : DB := ⟨[], 1, [], [], [], [], [], []⟩

/-- The asset created by `createAsset("msft", "Equity")` on a fresh store. -/
def msftAsset : Asset := ⟨1, "MSFT", "equity"⟩

/-- The store after that creation. -/
def dbMsft : DB := ⟨[msftAsset], 2, [], [], [], [], [], []⟩

/-- An equity asset with ticker AAA. -/
def aaaAsset : Asset := ⟨1, "AAA", "equity"⟩

/-- The equity detail row of that asset. -/
def aaaDetail : Row :=
  [("equity_id", .vInt 1), ("asset_id", .vInt 1),
   ("company_name", .vStr "Aaa Corp"), ("market_cap", .vInt 2000)]

/-- A store holding the AAA asset and its detail row, no bars. -/
def dbAaa : DB := ⟨[aaaAsset], 2, [aaaDetail], [], [], [], [], []⟩

/-- A store holding the AAA asset, its detail row and one equity bar. -/
def dbAaaBar : DB :=
  ⟨[aaaAsset], 2, [aaaDetail], [], [],
   [⟨1, "2020-01-02", [("open", .vInt 10)]⟩], [], []⟩

/-! Helper lemmas. -/

/-- Packing a valid code point and reading it back is the identity. -/
theorem charToNatOfNatValid (n : Nat) (h : n.isValidChar) :
    (Char.ofNat n).toNat = n := by
  rw [Char.ofNat, dif_pos h]
  rfl

/-- The upper-case branch of `Char.toLower`. -/
theorem toLower_of_upper_range (d : Char) (h : d.toNat ≥ 65 ∧ d.toNat ≤ 90) :
    d.toLower = Char.ofNat (d.toNat + 32) := by
  simp only [Char.toLower]
  rw [if_pos h]

/-- The identity branch of `Char.toLower`. -/
theorem toLower_of_not_upper_range (d : Char)
    (h : ¬(d.toNat ≥ 65 ∧ d.toNat ≤ 90)) : d.toLower = d := by
  simp only [Char.toLower]
  rw [if_neg h]

/-- The lower-case branch of `Char.toUpper`. -/
theorem toUpper_of_lower_range (d : Char) (h : d.toNat ≥ 97 ∧ d.toNat ≤ 122) :
    d.toUpper = Char.ofNat (d.toNat - 32) := by
  simp only [Char.toUpper]
  rw [if_pos h]

/-- The identity branch of `Char.toUpper`. -/
theorem toUpper_of_not_lower_range (d : Char)
    (h : ¬(d.toNat ≥ 97 ∧ d.toNat ≤ 122)) : d.toUpper = d := by
  simp only [Char.toUpper]
  rw [if_neg h]

/-- Lower-casing is idempotent through an intervening upper-casing: ASCII
case mapping round-trips. -/
theorem charLowerUpperLower (c : Char) :
    c.toLower.toUpper.toLower = c.toLower := by
  by_cases h1 : c.toNat ≥ 65 ∧ c.toNat ≤ 90
  · have hval : (c.toNat + 32).isValidChar := Or.inl (by omega)
    have e1 : c.toLower = Char.ofNat (c.toNat + 32) := toLower_of_upper_range c h1
    have e2 : c.toLower.toNat = c.toNat + 32 := by
      rw [e1, charToNatOfNatValid _ hval]
    have h2 : c.toLower.toNat ≥ 97 ∧ c.toLower.toNat ≤ 122 := by omega
    have hval2 : (c.toLower.toNat - 32).isValidChar := Or.inl (by omega)
    have e3 : c.toLower.toUpper = Char.ofNat (c.toLower.toNat - 32) :=
      toUpper_of_lower_range _ h2
    have e4 : c.toLower.toUpper.toNat = c.toNat := by
      rw [e3, charToNatOfNatValid _ hval2]; omega
    have h3 : c.toLower.toUpper.toNat ≥ 65 ∧ c.toLower.toUpper.toNat ≤ 90 := by
      omega
    have e5 : c.toLower.toUpper.toLower
        = Char.ofNat (c.toLower.toUpper.toNat + 32) := toLower_of_upper_range _ h3
    rw [e5, e4, ← e1]
  · have e1 : c.toLower = c := toLower_of_not_upper_range c h1
    rw [e1]
    by_cases h2 : c.toNat ≥ 97 ∧ c.toNat ≤ 122
    · have hval : (c.toNat - 32).isValidChar := Or.inl (by omega)
      have e2 : c.toUpper = Char.ofNat (c.toNat - 32) := toUpper_of_lower_range c h2
      have e3 : c.toUpper.toNat = c.toNat - 32 := by
        rw [e2, charToNatOfNatValid _ hval]
      have h3 : c.toUpper.toNat ≥ 65 ∧ c.toUpper.toNat ≤ 90 := by omega
      have e4 : c.toUpper.toLower = Char.ofNat (c.toUpper.toNat + 32) :=
        toLower_of_upper_range _ h3
      have e5 : c.toUpper.toNat + 32 = c.toNat := by omega
      rw [e4, e5, Char.ofNat_toNat]
    · have e2 : c.toUpper = c := toUpper_of_not_lower_range c h2
      rw [e2, e1]

/-- String-level round trip underlying boundary normalization. -/
theorem pyLowerRound (s : String) :
    pyLower (pyUpper (pyLower s)) = pyLower s := by
  show String.mk (((s.data.map Char.toLower).map Char.toUpper).map Char.toLower)
      = String.mk (s.data.map Char.toLower)
  congr 1
  induction s.data with
  | nil => rfl
  | cons c cs ih =>
    simp only [List.map_cons]
    rw [charLowerUpperLower c, ih]

/-- A successfully resolved lower-cased type string is the canonical name of
the member it resolves to. -/
theorem asset_type_canonical (s : String) (aty : AssetType)
    (h : asset_type (pyLower s) = .ok aty) : pyLower s = aty.type := by
  have hr := pyLowerRound s
  unfold asset_type at h
  split_ifs at h with h1 h2 h3
  · injection h with h4
    subst h4
    rw [h1] at hr
    have : pyLower "EQUITY" = "equity" := by decide
    rw [this] at hr
    exact hr.symm
  · injection h with h4
    subst h4
    rw [h2] at hr
    have : pyLower "CRYPTOCURRENCY" = "cryptocurrency" := by decide
    rw [this] at hr
    exact hr.symm
  · injection h with h4
    subst h4
    rw [h3] at hr
    have : pyLower "COMMODITYFUTURE" = "commodityfuture" := by decide
    rw [this] at hr
    exact hr.symm

/-- Upper-casing returns the empty string only on the empty string. -/
theorem pyUpper_eq_empty_iff (s : String) : pyUpper s = "" ↔ s = "" := by
  constructor
  · intro h
    have h2 : s.data.map Char.toUpper = [] := congrArg String.data h
    have h3 : s.data = [] := by
      cases hd : s.data with
      | nil => rfl
      | cons c cs => rw [hd] at h2; simp at h2
    exact String.toList_inj.mp h3
  · rintro rfl
    rfl

/-- The bar-edit loop can only fail with an invalid-attribute error. -/
theorem applyEditsBar_error_form (aty : AssetType) :
    ∀ (edits : List (String × Value)) (b : Bar) (e : Err),
      applyEditsBar aty b edits = .error e → ∃ k, e = .invalidAttribute k := by
  intro edits
  induction edits with
  | nil =>
    intro b e h
    simp [applyEditsBar] at h
  | cons p rest ih =>
    intro b e h
    obtain ⟨k, v⟩ := p
    simp only [applyEditsBar] at h
    by_cases hk : hasattr aty.bardata_model k = true
    · rw [if_pos hk] at h
      exact ih _ _ h
    · rw [if_neg hk] at h
      injection h with h2
      exact ⟨k, h2.symm⟩

/-- `setattr` stores the assigned value: looking the edited attribute up
again yields the new value whenever the attribute existed. -/
theorem lookup_setRow (k : String) (v : Value) :
    ∀ (r : Row) (w : Value),
      r.lookup k = some w → (setRow r k v).lookup k = some v := by
  intro r
  induction r with
  | nil =>
    intro w h
    simp [List.lookup] at h
  | cons p rest ih =>
    intro w h
    obtain ⟨pk, pv⟩ := p
    have e : setRow ((pk, pv) :: rest) k v
        = (if pk = k then (k, v) else (pk, pv)) :: setRow rest k v := rfl
    rw [e]
    by_cases hk : pk = k
    · rw [if_pos hk]
      simp [List.lookup]
    · rw [if_neg hk]
      have hne : (k == pk) = false := by
        simp only [beq_eq_false_iff_ne, ne_eq]
        exact fun hkk => hk hkk.symm
      simp only [List.lookup, hne] at h ⊢
      exact ih w h

/-- If no row of the asset table carries the given ticker, the combined
ticker-and-type filter returns nothing. -/
theorem filter_nil_of_no_ticker (l : List Asset) (t ty : String)
    (h : l.any (fun a => a.ticker == t) = false) :
    l.filter (fun a => a.ticker == t && a.type == ty) = [] := by
  rw [List.filter_eq_nil_iff]
  intro a ha
  have h2 := List.any_eq_false.mp h a ha
  simp only [Bool.and_eq_true, not_and]
  intro h3
  exact absurd h3 h2

/-! The claims. -/

/-- C1: the engine checks `hasattr` on the full suffixed key before any
stripping, so criteria with key market_cap_gte over the equity shape fail
with the invalid-attribute error naming that key — even though market_cap
is an attribute of the shape, the key resolves after stripping the suffix
in the sense of the specification, and one supplied row satisfies the
intended bound — instead of returning the rows with market_cap >= 1000. -/
theorem C1_gte_criteria_rejected :
    apply_filter_criteria
        [[("asset_id", .vInt 1), ("market_cap", .vInt 2000)],
         [("asset_id", .vInt 2), ("market_cap", .vInt 500)]]
        equityAttrs [("market_cap_gte", .vInt 1000)]
      = .error (.invalidAttribute "market_cap_gte")
    ∧ hasattr equityAttrs "market_cap" = true
    ∧ specResolvesAttribute equityAttrs "market_cap_gte" = true := by
  decide

/-- C2 counterexample: with criteria iterating market_cap_gte before bogus
over the equity shape, the engine fails naming market_cap_gte, a key that
does resolve in the sense of the specification; the first key that resolves
neither directly nor after suffix stripping is bogus, so the reported key is
not the first invalid one in the sense of the claim. -/
theorem C2_counterexample :
    apply_filter_criteria [] equityAttrs
        [("market_cap_gte", .vInt 1), ("bogus", .vInt 2)]
      = .error (.invalidAttribute "market_cap_gte")
    ∧ specResolvesAttribute equityAttrs "market_cap_gte" = true
    ∧ firstSpecInvalidKey equityAttrs
        [("market_cap_gte", .vInt 1), ("bogus", .vInt 2)] = some "bogus"
    ∧ "market_cap_gte" ≠ "bogus" := by
  decide

/-- C2 (amended): whenever some key of the criteria mapping is not directly
an attribute of the entity shape, the engine fails with the
invalid-attribute error, returns no refined query, and the key reported is
the first key in the mapping's iteration order that is not directly an
attribute (no suffix stripping is considered in this validation). -/
theorem C2_first_invalid_key_reported (model : List String) (rows : List Row)
    (criteria : List (String × Value))
    (h : ∃ p ∈ criteria, hasattr model p.1 = false) :
    ∃ k, apply_filter_criteria rows model criteria
          = .error (.invalidAttribute k)
      ∧ firstInvalidKey model criteria = some k := by
  induction criteria generalizing rows with
  | nil =>
    obtain ⟨p, hp, _⟩ := h
    exact absurd hp (List.not_mem_nil p)
  | cons q rest ih =>
    obtain ⟨k, v⟩ := q
    by_cases hk : hasattr model k = true
    · have h2 : ∃ p ∈ rest, hasattr model p.1 = false := by
        obtain ⟨p, hp, hpf⟩ := h
        rcases List.mem_cons.mp hp with heq | hmem
        · rw [heq] at hpf
          rw [hpf] at hk
          exact absurd hk (by decide)
        · exact ⟨p, hmem, hpf⟩
      have hfirst : firstInvalidKey model ((k, v) :: rest)
          = firstInvalidKey model rest := by
        simp [firstInvalidKey, List.find?, hk]
      simp only [apply_filter_criteria]
      rw [hfirst, if_pos hk]
      by_cases hg : strContains k "gte" = true
      · rw [if_pos hg]
        exact ih _ h2
      · rw [if_neg hg]
        by_cases hl : strContains k "lte" = true
        · rw [if_pos hl]
          exact ih _ h2
        · rw [if_neg hl]
          exact ih _ h2
    · refine ⟨k, ?_, ?_⟩
      · simp only [apply_filter_criteria]
        rw [if_neg hk]
      · have hk2 : hasattr model k = false := by
          cases h3 : hasattr model k
          · rfl
          · exact absurd h3 hk
        simp [firstInvalidKey, List.find?, hk2]

/-- C2 witness: the amended theorem applied to a concrete mapping with an
unknown key. -/
theorem C2_witness :
    ∃ k, apply_filter_criteria [] equityAttrs [("bogus", .vInt 1)]
          = .error (.invalidAttribute k)
      ∧ firstInvalidKey equityAttrs [("bogus", .vInt 1)] = some k :=
  C2_first_invalid_key_reported equityAttrs [] [("bogus", .vInt 1)]
    ⟨("bogus", .vInt 1), by decide, by decide⟩

/-- C3: the bar-data date filter keeps exactly the bars with
startDate <= date <= endDate, both bounds inclusive; an inverted range
yields the empty result rather than an error, and in particular getBars on
a single known equity ticker with start after end returns the empty list
for that ticker. -/
theorem C3_date_range_inclusive_empty_on_inverted :
    (∀ (bars : List Bar) (s e : String) (b : Bar),
        b ∈ apply_date_filter bars s e ↔ b ∈ bars ∧ s ≤ b.date ∧ b.date ≤ e)
  ∧ (∀ (bars : List Bar) (s e : String), e < s → apply_date_filter bars s e = [])
  ∧ (∀ (db : DB) (a : Asset) (s e : String),
        db.assets.filter (fun x => x.ticker == "AAA") = [a] →
        a.type = "equity" → e < s →
        get_bardata db ["AAA"] s e = .ok [("AAA", [])]) := by
  have hmem : ∀ (bars : List Bar) (s e : String) (b : Bar),
      b ∈ apply_date_filter bars s e ↔ b ∈ bars ∧ s ≤ b.date ∧ b.date ≤ e := by
    intro bars s e b
    simp [apply_date_filter, List.mem_filter, Bool.and_eq_true,
      decide_eq_true_eq, ge_iff_le]
  have hempty : ∀ (bars : List Bar) (s e : String),
      e < s → apply_date_filter bars s e = [] := by
    intro bars s e h
    rw [apply_date_filter, List.filter_eq_nil_iff]
    intro b _
    simp only [Bool.and_eq_true, decide_eq_true_eq, ge_iff_le, not_and]
    intro h1 h2
    exact absurd (le_trans h1 h2) (not_le.mpr h)
  refine ⟨hmem, hempty, ?_⟩
  intro db a s e hf hty hlt
  have hbars : apply_date_filter
      ((AssetType.EQUITY.barTable db).filter (fun b => b.asset_id == a.asset_id))
      s e = [] := hempty _ _ _ hlt
  simp only [get_bardata, get_bardata_go, hf, hty]
  simp [allAssetTypes, List.find?, AssetType.type, hbars, get_bardata_go]

/-- C3 witness: the theorem applied to a store holding the AAA asset and
one bar, with an inverted date range. -/
theorem C3_witness :
    get_bardata dbAaaBar ["AAA"] "2021-01-01" "2020-06-01" = .ok [("AAA", [])] :=
  C3_date_range_inclusive_empty_on_inverted.2.2 dbAaaBar aaaAsset
    "2021-01-01" "2020-06-01" (by decide) (by decide)
    (by rw [String.lt_iff_toList_lt]; decide)

/-- C4: when any entry of an addBars batch collides on the
(asset id, date) uniqueness key with an existing bar of the asset or with
another entry of the same batch, the whole operation fails with the
duplicate-bar error and the store is returned unchanged — no entry of the
batch is inserted. -/
theorem C4_add_bardata_batch_atomic (db : DB) (ticker aty_str : String)
    (aty : AssetType) (det : Row) (data : List CreateBar)
    (hty : asset_type aty_str = .ok aty)
    (hdet : details_exist db ticker aty = some det)
    (hcol : (∃ e ∈ data, ∃ b ∈ aty.barTable db,
               b.asset_id = rowIntAttr det "asset_id" ∧ b.date = e.date)
          ∨ ¬ (data.map (·.date)).Nodup) :
    add_bardata db ticker aty_str data = (db, .error .duplicateBar) := by
  have hnd : ¬ (barKeys (aty.barTable db ++
      data.map (fun e => Bar.mk (rowIntAttr det "asset_id") e.date e.fields))).Nodup := by
    intro hnodup
    rw [barKeys, List.map_append, List.nodup_append] at hnodup
    obtain ⟨_, hn2, hdisj⟩ := hnodup
    rcases hcol with ⟨e, he, b, hb, hbid, hbdate⟩ | hdup
    · have hk1 : (b.asset_id, b.date)
          ∈ (aty.barTable db).map (fun x => (x.asset_id, x.date)) :=
        List.mem_map_of_mem _ hb
      have hk2 : (b.asset_id, b.date)
          ∈ (data.map (fun e => Bar.mk (rowIntAttr det "asset_id") e.date e.fields)).map
              (fun x => (x.asset_id, x.date)) := by
        rw [List.map_map]
        refine List.mem_map.mpr ⟨e, he, ?_⟩
        simp [Function.comp, hbid, hbdate]
      exact hdisj hk1 hk2
    · apply hdup
      have hrw : data.map (·.date)
          = ((data.map (fun e => Bar.mk (rowIntAttr det "asset_id") e.date e.fields)).map
              (fun x => (x.asset_id, x.date))).map Prod.snd := by
        simp [List.map_map, Function.comp]
      rw [hrw]
      refine List.Nodup.map_on ?_ hn2
      intro x hx y hy hxy
      rw [List.map_map] at hx hy
      obtain ⟨ex, _, hex⟩ := List.mem_map.mp hx
      obtain ⟨ey, _, hey⟩ := List.mem_map.mp hy
      cases x
      cases y
      injection hex with hex1 hex2
      injection hey with hey1 hey2
      simp only at hxy
      simp [← hex1, ← hey1, hxy]
  simp only [add_bardata, hty, hdet]
  rw [if_neg hnd]

/-- C4 witness: a batch of two entries sharing a date for the AAA asset is
rejected whole. -/
theorem C4_witness :
    add_bardata dbAaa "AAA" "equity"
        [⟨"2020-01-01", [("open", .vInt 10)]⟩,
         ⟨"2020-01-01", [("open", .vInt 11)]⟩]
      = (dbAaa, .error .duplicateBar) :=
  C4_add_bardata_batch_atomic dbAaa "AAA" "equity" .EQUITY aaaDetail
    [⟨"2020-01-01", [("open", .vInt 10)]⟩, ⟨"2020-01-01", [("open", .vInt 11)]⟩]
    (by decide) (by decide) (Or.inr (by decide))

/-- C5 counterexample: a date string matching YYYY-MM-DD followed by one
trailing newline does not match the pattern exactly, yet editBar accepts it
through the regex and proceeds to the bar lookup, failing with the
bar-not-found error rather than the invalid-date-format error the claim
requires for every inexact date. -/
theorem C5_counterexample :
    edit_bardata dbAaa "equity" 1
        [("date", .vStr "2020-01-01\n"), ("open", .vInt 10)]
      = (dbAaa, .error .barNotFound)
    ∧ specDateExact "2020-01-01\n" = false
    ∧ ([("date", Value.vStr "2020-01-01\n"), ("open", Value.vInt 10)]
        : List (String × Value)) ≠ [] := by
  decide

/-- C5 (amended): for a valid type name and a non-empty edits mapping whose
date entry, when present, is a string, editBar fails with the
invalid-date-format error exactly when the date entry is missing or is a
string that fails the Python regex — the pattern YYYY-MM-DD up to one
permitted trailing newline; the empty mapping fails with the no-edits
error. -/
theorem C5_edit_bardata_date_check (db : DB) (aty_str : String)
    (aty : AssetType) (aid : Int) (edits : List (String × Value))
    (hty : asset_type aty_str = .ok aty)
    (hstr : ∀ v, edits.lookup "date" = some v → ∃ s, v = Value.vStr s) :
    (edits = [] → edit_bardata db aty_str aid edits = (db, .error .noEdits))
  ∧ (edits ≠ [] →
      ((edit_bardata db aty_str aid edits).2 = .error .invalidDateFormat
        ↔ edits.lookup "date" = none
          ∨ ∃ s, edits.lookup "date" = some (.vStr s) ∧ pyDateMatch s = false)) := by
  constructor
  · rintro rfl
    simp [edit_bardata, hty]
  · intro hne
    have hE : edits.isEmpty = false := by
      cases edits
      · exact absurd rfl hne
      · rfl
    cases hlook : edits.lookup "date" with
    | none =>
      have hres : edit_bardata db aty_str aid edits
          = (db, .error .invalidDateFormat) := by
        simp [edit_bardata, hty, hE, hlook]
      rw [hres]
      simp
    | some dv =>
      obtain ⟨s, rfl⟩ := hstr dv hlook
      by_cases hm : pyDateMatch s = true
      · have hfb : valueFalsy (.vStr s) = false := by
          simp only [valueFalsy]
          cases h : s == ""
          · rfl
          · exfalso
            rw [show s = "" from by simpa using h] at hm
            exact absurd hm (by decide)
        have hstep : edit_bardata db aty_str aid edits
            = match one_or_none (db.assets.filter (fun a => a.asset_id == aid)) with
              | none => (db, .error .assetNotFound)
              | some _ =>
                match get_bardata_instance db aid s aty with
                | none => (db, .error .barNotFound)
                | some bar =>
                  match applyEditsBar aty bar edits with
                  | .error e => (db, .error e)
                  | .ok bar2 =>
                    (aty.setBarTable db
                      ((aty.barTable db).map (fun b => if b = bar then bar2 else b)),
                     .ok bar2) := by
          simp [edit_bardata, hty, hE, hlook, hfb, hm]
        have hL : (edit_bardata db aty_str aid edits).2
            ≠ .error .invalidDateFormat := by
          rw [hstep]
          cases one_or_none (db.assets.filter (fun a => a.asset_id == aid)) with
          | none => simp
          | some a2 =>
            cases get_bardata_instance db aid s aty with
            | none => simp
            | some bar =>
              cases happ : applyEditsBar aty bar edits with
              | error e =>
                obtain ⟨k, rfl⟩ := applyEditsBar_error_form aty edits bar e happ
                simp [happ]
              | ok bar2 =>
                simp [happ]
        have hR : ¬((some (Value.vStr s) : Option Value) = none
            ∨ ∃ t, (some (Value.vStr s) : Option Value) = some (.vStr t)
                ∧ pyDateMatch t = false) := by
          rintro (h | ⟨t, ht, htm⟩)
          · exact Option.noConfusion h
          · injection ht with ht2
            injection ht2 with ht3
            rw [← ht3] at htm
            rw [hm] at htm
            exact Bool.noConfusion htm
        exact iff_of_false hL hR
      · have hmf : pyDateMatch s = false := by
          cases h : pyDateMatch s
          · rfl
          · exact absurd h hm
        have hres : edit_bardata db aty_str aid edits
            = (db, .error .invalidDateFormat) := by
          by_cases hf : valueFalsy (.vStr s) = true
          · simp [edit_bardata, hty, hE, hlook, hf]
          · have hfb : valueFalsy (.vStr s) = false := by
              cases h : valueFalsy (.vStr s)
              · rfl
              · exact absurd h hf
            simp [edit_bardata, hty, hE, hlook, hfb, hmf]
        rw [hres]
        constructor
        · intro _
          exact Or.inr ⟨s, rfl, hmf⟩
        · intro _
          rfl

/-- C5 witness: the amended theorem applied to a mapping without a date
entry, matching the spec example. -/
theorem C5_witness :
    (edit_bardata dbAaa "equity" 1 [("open", .vInt 10)]).2
      = .error .invalidDateFormat := by
  refine ((C5_edit_bardata_date_check dbAaa "equity" .EQUITY 1
      [("open", .vInt 10)] (by decide) ?_).2 (by decide)).mpr (Or.inl (by decide))
  intro v h
  simp [List.lookup] at h

/-- C6: string-to-type resolution depends only on the upper-cased input, so
it is case-insensitive; each of the three canonical names resolves to its
member, whose descriptor carries the canonical name, the detail entity
shape and the bar entity shape; every string whose upper-casing is none of
the three member names fails with the invalid-asset-type error. Resolution
is a pure function of its string argument — it takes no store. -/
theorem C6_asset_type_registry :
    (∀ s t : String, pyUpper s = pyUpper t → asset_type s = asset_type t)
  ∧ (asset_type "equity" = .ok .EQUITY
     ∧ asset_type "cryptocurrency" = .ok .CRYPTOCURRENCY
     ∧ asset_type "commodityfuture" = .ok .COMMODITYFUTURE)
  ∧ (∀ s : String, pyUpper s ≠ "EQUITY" → pyUpper s ≠ "CRYPTOCURRENCY" →
       pyUpper s ≠ "COMMODITYFUTURE" → asset_type s = .error .invalidAssetType)
  ∧ (AssetType.EQUITY.type = "equity" ∧ AssetType.EQUITY.model = equityAttrs
     ∧ AssetType.EQUITY.bardata_model = equityBarAttrs)
  ∧ (AssetType.CRYPTOCURRENCY.type = "cryptocurrency"
     ∧ AssetType.CRYPTOCURRENCY.model = cryptocurrencyAttrs
     ∧ AssetType.CRYPTOCURRENCY.bardata_model = cryptocurrencyBarAttrs)
  ∧ (AssetType.COMMODITYFUTURE.type = "commodityfuture"
     ∧ AssetType.COMMODITYFUTURE.model = commodityFutureAttrs
     ∧ AssetType.COMMODITYFUTURE.bardata_model = commodityFutureBarAttrs) := by
  refine ⟨?_, ⟨by decide, by decide, by decide⟩, ?_, ⟨rfl, rfl, rfl⟩,
    ⟨rfl, rfl, rfl⟩, ⟨rfl, rfl, rfl⟩⟩
  · intro s t h
    simp only [asset_type, h]
  · intro s h1 h2 h3
    simp only [asset_type, if_neg h1, if_neg h2, if_neg h3]

/-- C6 witness: mixed casing resolves like the canonical name, and a name
outside the closed set fails. -/
theorem C6_witness :
    asset_type "EqUiTy" = asset_type "equity"
    ∧ asset_type "bond" = .error .invalidAssetType :=
  ⟨C6_asset_type_registry.1 "EqUiTy" "equity" (by decide),
   C6_asset_type_registry.2.2.1 "bond" (by decide) (by decide) (by decide)⟩

/-- Calling `create_asset` again right after a successful insertion of the
same normalized pair reports a duplicate: the freshly inserted row is found
by the ticker-and-type lookup and its generated id is truthy. -/
theorem create_asset_second_is_duplicate (db : DB) (t y : String)
    (aty : AssetType) (hT : ¬(t = "")) (hTy : ¬(y = ""))
    (heq : asset_type y = .ok aty) (hcanon : y = aty.type)
    (hid : db.nextAssetId ≠ 0)
    (hfil : db.assets.any (fun a => a.ticker == t) = false) :
    create_asset
        {db with assets := db.assets ++ [⟨db.nextAssetId, t, y⟩],
                 nextAssetId := db.nextAssetId + 1} ⟨t, y⟩
      = ({db with assets := db.assets ++ [⟨db.nextAssetId, t, y⟩],
                  nextAssetId := db.nextAssetId + 1}, .error .duplicateAsset) := by
  have hfil0 : db.assets.filter (fun x => x.ticker == t && x.type == aty.type) = [] :=
    filter_nil_of_no_ticker db.assets t aty.type hfil
  have hone : (db.assets ++ ([⟨db.nextAssetId, t, y⟩] : List Asset)).filter
      (fun x => x.ticker == t && x.type == aty.type)
      = ([⟨db.nextAssetId, t, y⟩] : List Asset) := by
    rw [List.filter_append, hfil0]
    simp [List.filter, hcanon]
  have hae : asset_exists
      {db with assets := db.assets ++ [⟨db.nextAssetId, t, y⟩],
               nextAssetId := db.nextAssetId + 1} t aty
      = some db.nextAssetId := by
    unfold asset_exists get_asset
    simp only []
    rw [hone]
    rfl
  unfold create_asset
  rw [if_neg hT, if_neg hTy, heq]
  simp only []
  rw [if_pos (by rw [hae]; simpa using hid)]

/-- C7: after a successful createAsset, an immediately repeated call with
the same raw (ticker, type) pair fails with the duplicate-asset error and
returns the store of the first call unchanged; an empty ticker or an empty
type fails with the missing-field error before any write, the store equally
unchanged. -/
theorem C7_create_asset_duplicate_and_missing (db : DB) (rt rty : String) :
    (∀ (db2 : DB) (a : Asset), 0 < db.nextAssetId →
        createAssetOp db rt rty = (db2, .ok a) →
        createAssetOp db2 rt rty = (db2, .error .duplicateAsset))
  ∧ (rt = "" → createAssetOp db rt rty = (db, .error (.missingField "ticker")))
  ∧ (rt ≠ "" → rty = "" →
        createAssetOp db rt rty = (db, .error (.missingField "type"))) := by
  refine ⟨?_, ?_, ?_⟩
  · intro db2 a hid hsucc
    unfold createAssetOp create_asset mkCreateAsset at hsucc
    simp only [] at hsucc
    split at hsucc
    · exact absurd (congrArg Prod.snd hsucc) (by simp)
    rename_i hT
    split at hsucc
    · exact absurd (congrArg Prod.snd hsucc) (by simp)
    rename_i hTy
    split at hsucc
    · exact absurd (congrArg Prod.snd hsucc) (by simp)
    rename_i aty heq
    split at hsucc
    · exact absurd (congrArg Prod.snd hsucc) (by simp)
    split at hsucc
    · exact absurd (congrArg Prod.snd hsucc) (by simp)
    rename_i hcommit
    rw [Prod.mk.injEq] at hsucc
    obtain ⟨hdb, hok⟩ := hsucc
    subst hdb
    exact create_asset_second_is_duplicate db (pyUpper rt) (pyLower rty) aty
      hT hTy heq (asset_type_canonical rty aty heq) hid.ne'
      (by simpa using hcommit)
  · rintro rfl
    unfold createAssetOp create_asset
    rw [if_pos (show (mkCreateAsset "" rty).ticker = "" from rfl)]
  · intro hrt
    rintro rfl
    unfold createAssetOp create_asset
    rw [if_neg (show ¬((mkCreateAsset rt "").ticker = "") from
          fun h => hrt ((pyUpper_eq_empty_iff rt).mp h)),
        if_pos (show (mkCreateAsset rt "").type = "" from rfl)]

/-- C7 witness: creating msft/Equity on a fresh store and repeating the
call fails with the duplicate-asset error. -/
theorem C7_witness :
    createAssetOp dbMsft "msft" "Equity" = (dbMsft, .error .duplicateAsset) :=
  (C7_create_asset_duplicate_and_missing dbEmpty "msft" "Equity").1 dbMsft
    msftAsset (by decide) (by decide)

/-- C8: every asset a successful createAsset stores and returns carries the
upper-cased ticker and the lower-cased type of the raw boundary input. -/
theorem C8_create_asset_normalizes (db : DB) (rt rty : String) (db2 : DB)
    (a : Asset) (hsucc : createAssetOp db rt rty = (db2, .ok a)) :
    a.ticker = pyUpper rt ∧ a.type = pyLower rty ∧ a ∈ db2.assets := by
  unfold createAssetOp create_asset mkCreateAsset at hsucc
  simp only [] at hsucc
  split at hsucc
  · exact absurd (congrArg Prod.snd hsucc) (by simp)
  split at hsucc
  · exact absurd (congrArg Prod.snd hsucc) (by simp)
  split at hsucc
  · exact absurd (congrArg Prod.snd hsucc) (by simp)
  split at hsucc
  · exact absurd (congrArg Prod.snd hsucc) (by simp)
  split at hsucc
  · exact absurd (congrArg Prod.snd hsucc) (by simp)
  rw [Prod.mk.injEq] at hsucc
  obtain ⟨hdb, hok⟩ := hsucc
  injection hok with hok2
  subst hok2
  subst hdb
  refine ⟨rfl, rfl, ?_⟩
  simp

/-- C8 witness: the msft/Equity creation stores ticker MSFT and type
equity. -/
theorem C8_witness :
    (pyUpper "msft" = "MSFT" ∧ pyLower "Equity" = "equity")
    ∧ (msftAsset.ticker = pyUpper "msft" ∧ msftAsset.type = pyLower "Equity"
       ∧ msftAsset ∈ dbMsft.assets) :=
  ⟨by decide,
   C8_create_asset_normalizes dbEmpty "msft" "Equity" dbMsft msftAsset (by decide)⟩

/-- C9: on an existing asset, with edits containing neither asset_id nor
type, editAsset assigns the value found under the ticker key and silently
ignores every other key — the mapping is arbitrary and no invalid-attribute
check occurs — while a mapping without a ticker key ends in the uncaught
KeyError rather than a categorized error. -/
theorem C9_edit_asset_only_ticker (db : DB) (aid : Int) (a : Asset)
    (edits : List (String × Value))
    (hone : db.assets.filter (fun x => x.asset_id == aid) = [a])
    (hnid : (edits.map (·.1)).contains "asset_id" = false)
    (hnty : (edits.map (·.1)).contains "type" = false) :
    (∀ t : String, edits.lookup "ticker" = some (.vStr t) →
       edit_asset db aid edits
         = ({db with assets :=
              db.assets.map fun x => if x = a then {a with ticker := t} else x},
            .ok {a with ticker := t}))
  ∧ (edits.lookup "ticker" = none →
       edit_asset db aid edits = (db, .error (.keyError "ticker"))) := by
  have hstep : edit_asset db aid edits
      = match edits.lookup "ticker" with
        | none => (db, .error (.keyError "ticker"))
        | some v =>
          ({db with assets :=
              db.assets.map fun x => if x = a then {a with ticker := valueToStr v} else x},
           .ok {a with ticker := valueToStr v}) := by
    simp only [edit_asset, hone, one_or_none]
    rw [hnid, hnty]
    simp
  constructor
  · intro t hlook
    rw [hstep, hlook]
    rfl
  · intro hlook
    rw [hstep, hlook]

/-- C9 witness: an edit carrying a ticker and one junk key renames the AAA
asset, the junk key ignored. -/
theorem C9_witness :
    edit_asset dbAaa 1 [("ticker", .vStr "BBB"), ("junk", .vInt 1)]
      = ({dbAaa with assets :=
            dbAaa.assets.map fun x => if x = aaaAsset then {aaaAsset with ticker := "BBB"} else x},
         .ok {aaaAsset with ticker := "BBB"}) :=
  (C9_edit_asset_only_ticker dbAaa 1 aaaAsset
      [("ticker", .vStr "BBB"), ("junk", .vInt 1)]
      (by decide) (by decide) (by decide)).1 "BBB" (by decide)

/-- C10: editDetails performs no immutability check: an edits mapping
holding the asset_id key passes the attribute-existence check on the equity
shape and the operation succeeds, the detail row now carrying the new
owning asset id — it is not rejected with an immutable-field or
invalid-attribute error. -/
theorem C10_edit_details_overwrites_asset_id (db : DB) (aid : Int) (a : Asset)
    (det : Row) (v : Value)
    (h1 : db.assets.filter (fun x => x.asset_id == aid) = [a])
    (h2 : db.assets.filter
        (fun x => x.ticker == a.ticker && x.type == "equity") = [a])
    (h3 : db.equity.find?
        (fun r => r.lookup "asset_id" == some (.vInt a.asset_id)) = some det) :
    (edit_asset_details db "equity" aid [("asset_id", v)]).2
        = .ok (setRow det "asset_id" v)
    ∧ (setRow det "asset_id" v).lookup "asset_id" = some v := by
  have hasid : det.lookup "asset_id" = some (.vInt a.asset_id) := by
    have h4 := List.find?_some h3
    simpa using h4
  refine ⟨?_, lookup_setRow "asset_id" v det _ hasid⟩
  have hty : asset_type "equity" = .ok .EQUITY := by decide
  have hhas : hasattr (AssetType.model AssetType.EQUITY) "asset_id" = true := by
    decide
  simp [edit_asset_details, hty, h1, h2, h3, one_or_none, details_exist,
    asset_exists, get_asset, get_details_row, AssetType.type,
    AssetType.detailTable, applyEditsRow, hhas]

/-- C10 witness: overwriting the owning asset id of the AAA detail row to a
fresh id succeeds. -/
theorem C10_witness :
    (edit_asset_details dbAaa "equity" 1 [("asset_id", .vInt 42)]).2
        = .ok (setRow aaaDetail "asset_id" (.vInt 42))
    ∧ (setRow aaaDetail "asset_id" (.vInt 42)).lookup "asset_id"
        = some (.vInt 42) :=
  C10_edit_details_overwrites_asset_id dbAaa 1 aaaAsset aaaDetail (.vInt 42)
    (by decide) (by decide) (by decide)

end MarketData
